import Mathlib

/-!
Verification of the transcript-acquisition pipeline
(`src/02_get_transcripts.py` and `src/02b_whisper_transcribe.py`).

The Python source is shallowly embedded: the external transcript source is
modelled as an explicit behaviour value (a listing result, per-transcript
fetch results, and durations), wall-clock reads and sleeps are modelled by
threading an explicit rational clock, and the driver loop of `main` becomes
a fold over the ordered list of video ids that accumulates rows, per-item
steps and flush snapshots.
-/

namespace TranscriptPipeline

/-- Exceptions that can be raised by the upstream transcript source,
mirroring the classes imported by `02_get_transcripts.py` plus a
catch-all for any other exception class (carrying that class's name). -/
inductive Exc where
  | transcriptsDisabled (msg : String)
  | noTranscriptFound (msg : String)
  | videoUnavailable (msg : String)
  | tooManyRequests (msg : String)
  | other (name : String) (msg : String)
deriving DecidableEq, Repr

/-- `type(e).__name__` of an embedded exception. -/
def excName : Exc → String
  | .transcriptsDisabled _ => "TranscriptsDisabled"
  | .noTranscriptFound _ => "NoTranscriptFound"
  | .videoUnavailable _ => "VideoUnavailable"
  | .tooManyRequests _ => "TooManyRequests"
  | .other n _ => n

/-- `str(e)` of an embedded exception. -/
def excMessage : Exc → String
  | .transcriptsDisabled m => m
  | .noTranscriptFound m => m
  | .videoUnavailable m => m
  | .tooManyRequests m => m
  | .other _ m => m

/-- One transcript offered by the upstream listing: its language code,
whether it is machine generated, the behaviour of `t.fetch()` (the list of
segment texts, or a raised exception), and how long that fetch takes. -/
structure Transcript where
  language_code : String
  is_generated : Bool
  fetchResult : Except Exc (List String)
  fetchDuration : ℚ

/-- Behaviour of `YouTubeTranscriptApi.list_transcripts(video_id)` for one
call: its outcome and its duration. -/
structure SourceBehavior where
  listResult : Except Exc (List Transcript)
  listDuration : ℚ

/-- `TextFormatter.format_transcript`: join the segment texts with
newlines. -/
def format_transcript (segments : List String) : String :=
  String.intercalate "\n" segments

/-- `transcript_list.find_manually_created_transcript([lang])`: the first
manually created transcript in the listing matching `lang` (the library
raises when there is none; the caller catches, so we return an option). -/
def findManual (tl : List Transcript) (lang : String) : Option Transcript :=
  tl.find? fun t => !t.is_generated && t.language_code == lang

/-- `transcript_list.find_generated_transcript([lang])`, option-valued as
above. -/
def findGenerated (tl : List Transcript) (lang : String) : Option Transcript :=
  tl.find? fun t => t.is_generated && t.language_code == lang

/-- `pick_transcript` from `02_get_transcripts.py`: manual transcript in a
preferred language (languages in list order), else auto transcript in a
preferred language, else the first manual transcript of any language, else
the first auto transcript of any language, else `(None, None)`. -/
def pick_transcript (tl : List Transcript) (preferred_langs : List String) :
    Option (Transcript × String) :=
  match preferred_langs.findSome? (findManual tl) with
  | some t => some (t, "manual")
  | none =>
    match preferred_langs.findSome? (findGenerated tl) with
    | some t => some (t, "auto")
    | none =>
      match (tl.filter fun t => !t.is_generated).head? with
      | some t => some (t, "manual")
      | none =>
        match (tl.filter fun t => t.is_generated).head? with
        | some t => some (t, "auto")
        | none => none

/-- The row dictionary built by `fetch_one` (the TranscriptResult of the
text-source path). -/
structure Rec where
  video_id : String
  has_transcript : Bool
  language_code : Option String
  is_generated : Option Bool
  source : Option String
  transcript_text : Option String
  error_type : Option String
  error_message : Option String
  fetched_at_utc : ℚ
deriving DecidableEq, Repr

/-- The row built by each `except` arm of `fetch_one`. -/
def errorRecord (video_id : String) (e : Exc) (fetched_at : ℚ) : Rec :=
  { video_id := video_id
    has_transcript := false
    language_code := none
    is_generated := none
    source := none
    transcript_text := none
    error_type := some (excName e)
    error_message := some (excMessage e)
    fetched_at_utc := fetched_at }

/-- The row built by `fetch_one` when `pick_transcript` finds nothing. -/
def noTranscriptRecord (video_id : String) (fetched_at : ℚ) : Rec :=
  { video_id := video_id
    has_transcript := false
    language_code := none
    is_generated := none
    source := none
    transcript_text := none
    error_type := some "NoTranscriptFound"
    error_message := some "No usable transcript found"
    fetched_at_utc := fetched_at }

/-- The row built by `fetch_one` on a successful fetch. -/
def successRecord (video_id : String) (chosen : Transcript) (src : String)
    (text : String) (fetched_at : ℚ) : Rec :=
  { video_id := video_id
    has_transcript := true
    language_code := some chosen.language_code
    is_generated := some chosen.is_generated
    source := some src
    transcript_text := some text
    error_type := none
    error_message := none
    fetched_at_utc := fetched_at }

/-- `fetch_one(video_id, preferred_langs, sleep_s)`.  The clock argument is
the wall-clock value when the call starts; the function returns the row it
builds together with the clock value when the call returns (network
operations advance the clock by their durations and a successful fetch
additionally sleeps `sleep_s`).  `fetched_at = datetime.utcnow()` is read
at entry, before any network operation. -/
def fetch_one (video_id : String) (preferred_langs : List String)
    (beh : SourceBehavior) (sleep_s : ℚ) (clock : ℚ) : Rec × ℚ :=
  let fetched_at := clock
  match beh.listResult with
  | .error e => (errorRecord video_id e fetched_at, clock + beh.listDuration)
  | .ok tlist =>
    let c1 := clock + beh.listDuration
    match pick_transcript tlist preferred_langs with
    | none => (noTranscriptRecord video_id fetched_at, c1)
    | some (chosen, src) =>
      match chosen.fetchResult with
      | .error e => (errorRecord video_id e fetched_at, c1 + chosen.fetchDuration)
      | .ok segments =>
        (successRecord video_id chosen src (format_transcript segments) fetched_at,
          c1 + chosen.fetchDuration + sleep_s)

/-- The fixed inter-item delay applied after every successful network
fetch (`sleep_s=0.15` in `main`). -/
def inter_item_sleep_s : ℚ := 3 / 20

/-- The fixed rate-limit cool-down (`time.sleep(60)` in `main`). -/
def cooldown_s : ℚ := 60

/-- What happened while processing one work-list item inside the driver
loop of `main`: the id, the recorded row, the clock when the item was
picked up, the clock when `fetch_one` returned, whether the 60s rate-limit
sleep ran, and the clock when the iteration ended. -/
structure ItemStep where
  vid : String
  result : Rec
  clockStart : ℚ
  clockAfterFetch : ℚ
  cooldownApplied : Bool
  clockEnd : ℚ
deriving DecidableEq, Repr

/-- The mutable state of the driver loop in `main`: the `rows` buffer (never
cleared during a run), the wall clock, the per-item step log, and the list
of checkpoint snapshots written by the periodic flushes. -/
structure RunState where
  rows : List Rec
  clock : ℚ
  steps : List ItemStep
  flushes : List (List Rec)
deriving Repr

/-- Processing of one non-skipped item inside the loop of `main`: call
`fetch_one` (with `preferred_langs=("en",)`, `sleep_s=0.15`), then sleep 60
exactly when the recorded `error_type` equals `"TooManyRequests"` (the
rate-limit check of `main`).  The behaviour is indexed by how many
attempts at this id the run has already made, so that an
attempt-dependent upstream can be expressed; the driver visits each
work-list item once, so attempts beyond the first are never made. -/
def newStep (beh : String → Nat → SourceBehavior) (s : RunState)
    (vid : String) : ItemStep :=
  let fr := fetch_one vid ["en"]
    (beh vid (s.steps.filter fun st => st.vid == vid).length)
    inter_item_sleep_s s.clock
  let rl := fr.1.error_type == some "TooManyRequests"
  ⟨vid, fr.1, s.clock, fr.2, rl, if rl then fr.2 + cooldown_s else fr.2⟩

/-- One iteration of the `for idx, vid in enumerate(video_ids)` loop of
`main`: skip if already checkpointed; otherwise process the item
(`newStep`), append the row, and flush `existing ++ rows` when the buffer
size is a positive multiple of 100 (`len(rows) > 0 and len(rows) % 100 ==
0`; the buffer is never cleared). -/
def stepItem (beh : String → Nat → SourceBehavior) (existing : List Rec)
    (done : List String) (s : RunState) (vid : String) : RunState :=
  if vid ∈ done then s
  else
    let st := newStep beh s vid
    let rows1 := s.rows ++ [st.result]
    { rows := rows1
      clock := st.clockEnd
      steps := s.steps ++ [st]
      flushes :=
        if 0 < rows1.length ∧ rows1.length % 100 = 0 then
          s.flushes ++ [existing ++ rows1]
        else s.flushes }

/-- The driver `main` of `02_get_transcripts.py`, from the point where the
existing checkpoint has been loaded: `done_ids` are the video ids of the
existing rows, the loop runs over `video_ids`, and the final checkpoint is
the full overwrite `concat(existing, rows)`.  Returns the final loop state
and the final checkpoint. -/
def runDriver (beh : String → Nat → SourceBehavior) (existing : List Rec)
    (video_ids : List String) : RunState × List Rec :=
  let done := existing.map fun r => r.video_id
  let fin := video_ids.foldl (stepItem beh existing done) ⟨[], 0, [], []⟩
  (fin, existing ++ fin.rows)

/-- The row dictionary built by the loop of `main` in
`02b_whisper_transcribe.py` (the fallback-transcriber path). -/
structure WRec where
  video_id : String
  has_transcript : Bool
  language_code : Option String
  source : String
  transcript_text : Option String
  error_type : Option String
  error_message : Option String
  fetched_at_utc : ℚ
deriving DecidableEq, Repr

/-- Python's `str.strip()`: drop leading and trailing whitespace. -/
def pyStrip (s : String) : String :=
  String.mk (((s.toList.dropWhile Char.isWhitespace).reverse.dropWhile
    Char.isWhitespace).reverse)

/-- One iteration of the whisper loop: `res` is the combined behaviour of
`download_audio` followed by `model.transcribe` (raising, or returning the
optional raw `text` and `language` fields of the result dictionary).
On success the text is stripped, `has_transcript` is true iff the stripped
text is non-empty, and the row keeps the stripped text only when
non-empty; on any exception a failed row is built. -/
def whisperRow (vid : String) (modelName : String)
    (res : Except Exc (Option String × Option String)) (fetched_at : ℚ) : WRec :=
  match res with
  | .error e =>
    { video_id := vid
      has_transcript := false
      language_code := none
      source := "whisper_" ++ modelName
      transcript_text := none
      error_type := some (excName e)
      error_message := some (excMessage e)
      fetched_at_utc := fetched_at }
  | .ok (rawText, lang) =>
    let text := pyStrip (rawText.getD "")
    if text == "" then
      { video_id := vid
        has_transcript := false
        language_code := lang
        source := "whisper_" ++ modelName
        transcript_text := none
        error_type := none
        error_message := none
        fetched_at_utc := fetched_at }
    else
      { video_id := vid
        has_transcript := true
        language_code := lang
        source := "whisper_" ++ modelName
        transcript_text := some text
        error_type := none
        error_message := none
        fetched_at_utc := fetched_at }

/-- The work list of a run: the input ids minus the already-checkpointed
ones, preserving input order (the skip test of the driver loop). -/
def workList (done : List String) : List String → List String
  | [] => []
  | v :: vs => if v ∈ done then workList done vs else v :: workList done vs

section SpecSelector

/-- Modelled from the spec, §4.1 tier 1: a manually authored transcript in
a preferred language, languages tried in list order. -/
def specTier1 (tl : List Transcript) (langs : List String) :
    Option (Transcript × String) :=
  (langs.findSome? (findManual tl)).map fun t => (t, "manual")

/-- Modelled from the spec, §4.1 tier 2: an auto transcript in a preferred
language, languages tried in list order. -/
def specTier2 (tl : List Transcript) (langs : List String) :
    Option (Transcript × String) :=
  (langs.findSome? (findGenerated tl)).map fun t => (t, "auto")

/-- Modelled from the spec, §4.1 tier 3: any manually authored transcript,
first one found. -/
def specTier3 (tl : List Transcript) : Option (Transcript × String) :=
  ((tl.filter fun t => !t.is_generated).head?).map fun t => (t, "manual")

/-- Modelled from the spec, §4.1 tier 4: any machine-generated transcript,
first one found. -/
def specTier4 (tl : List Transcript) : Option (Transcript × String) :=
  ((tl.filter fun t => t.is_generated).head?).map fun t => (t, "auto")

/-- Modelled from the spec, §4.1 and §9: the Source Selector as a fold over
the ordered tier list, stopping at the first success. -/
def selectorSpec (tl : List Transcript) (langs : List String) :
    Option (Transcript × String) :=
  (specTier1 tl langs).orElse fun _ =>
    (specTier2 tl langs).orElse fun _ =>
      (specTier3 tl).orElse fun _ => specTier4 tl

end SpecSelector

section ConcreteBehaviours

/-- Item A of the spec's test scenario: a manual English transcript. -/
def tA : Transcript := ⟨"en", false, .ok ["hello world"], 1⟩

/-- Item B of the spec's test scenario: only an auto Spanish transcript. -/
def tB : Transcript := ⟨"es", true, .ok ["hola mundo"], 1⟩

/-- The auto English transcript item C would offer after its first
attempt. -/
def tC : Transcript := ⟨"en", true, .ok ["c text"], 1⟩

/-- The spec's three-item test scenario (§8): A has a manual English
transcript, B only an auto Spanish one, and C raises a rate limit on its
first attempt but would succeed with an auto English transcript on any
later attempt. -/
def scenarioBeh : String → Nat → SourceBehavior
  | "A", _ => ⟨.ok [tA], 1⟩
  | "B", _ => ⟨.ok [tB], 1⟩
  | "C", 0 => ⟨.error (.tooManyRequests "simulated rate limit"), 1⟩
  | "C", _ => ⟨.ok [tC], 1⟩
  | _, _ => ⟨.error (.other "RuntimeError" "no behaviour"), 1⟩

/-- An upstream offering one manual English transcript whose fetch returns
an empty segment list, so the formatted text is the empty string. -/
def behEmptyText : SourceBehavior := ⟨.ok [⟨"en", false, .ok [], 1⟩], 1⟩

/-- An upstream whose listing takes 5 time units and whose single manual
English transcript takes 2 time units to fetch. -/
def behTimed : SourceBehavior := ⟨.ok [⟨"en", false, .ok ["hello"], 2⟩], 5⟩

/-- An upstream that raises `VideoUnavailable` when listed. -/
def behUnavailable : SourceBehavior :=
  ⟨.error (.videoUnavailable "video is private"), 1⟩

/-- A manual English transcript. -/
def tManualEn : Transcript := ⟨"en", false, .ok ["manual english"], 1⟩

/-- An auto English transcript. -/
def tAutoEn : Transcript := ⟨"en", true, .ok ["auto english"], 1⟩

/-- A manual French transcript. -/
def tManualFr : Transcript := ⟨"fr", false, .ok ["manuel francais"], 1⟩

/-- An auto French transcript. -/
def tAutoFr : Transcript := ⟨"fr", true, .ok ["auto francais"], 1⟩

/-- A listing with manual and auto transcripts both in the preferred
language (English) and in another language. -/
def richList : List Transcript := [tAutoFr, tManualFr, tAutoEn, tManualEn]

end ConcreteBehaviours

/-- Whether an optional text field holds a non-empty string. -/
def textNonEmpty : Option String → Bool
  | some s => !(s == "")
  | none => false

/-- The spec's TranscriptResult invariant, as claimed: `has_text` is true
iff `error_kind` is absent and `text` is a non-empty string, and when
`has_text` is false the text is absent. -/
abbrev resultInvariantClaim (has : Bool) (err txt : Option String) : Prop :=
  (has = true ↔ (err = none ∧ textNonEmpty txt = true)) ∧
  (has = false → txt = none)

/-- The invariant the code actually maintains: `has_text` is true iff
`error_kind` is absent and `text` is present (possibly empty on the
text-source path), and when `has_text` is false the text is absent. -/
abbrev resultInvariantAmended (has : Bool) (err txt : Option String) : Prop :=
  (has = true ↔ (err = none ∧ txt ≠ none)) ∧
  (has = false → txt = none)

/-- Pacing of one driver step: the cool-down ran exactly when the recorded
error kind is the rate-limit kind, and it advanced the clock by exactly
`cooldown_s`; every other classification leaves the clock where the fetch
left it. -/
abbrev stepPacing (st : ItemStep) : Prop :=
  (st.cooldownApplied = true ↔ st.result.error_type = some "TooManyRequests") ∧
  st.clockEnd = st.clockAfterFetch
    + (if st.cooldownApplied = true then cooldown_s else 0)

/-- Flush-snapshot invariant of a run state: every snapshot written so far
is an initial segment of the current full merged set `existing ++ rows`,
and the snapshots extend one another in order. -/
abbrev flushInv (existing : List Rec) (s : RunState) : Prop :=
  (∀ f ∈ s.flushes, ∃ rest, existing ++ s.rows = f ++ rest) ∧
  s.flushes.Pairwise fun a b => ∃ rest, b = a ++ rest

/-! ### Structural lemmas about `fetch_one` -/

theorem fetch_one_video_id (vid : String) (langs : List String)
    (beh : SourceBehavior) (sleep_s clock : ℚ) :
    (fetch_one vid langs beh sleep_s clock).1.video_id = vid := by
  rcases h : beh.listResult with e | tl
  · simp [fetch_one, h, errorRecord]
  · rcases hp : pick_transcript tl langs with _ | ⟨chosen, src⟩
    · simp [fetch_one, h, hp, noTranscriptRecord]
    · rcases hf : chosen.fetchResult with e | segments
      · simp [fetch_one, h, hp, hf, errorRecord]
      · simp [fetch_one, h, hp, hf, successRecord]

theorem fetch_one_fetched_at (vid : String) (langs : List String)
    (beh : SourceBehavior) (sleep_s clock : ℚ) :
    (fetch_one vid langs beh sleep_s clock).1.fetched_at_utc = clock := by
  rcases h : beh.listResult with e | tl
  · simp [fetch_one, h, errorRecord]
  · rcases hp : pick_transcript tl langs with _ | ⟨chosen, src⟩
    · simp [fetch_one, h, hp, noTranscriptRecord]
    · rcases hf : chosen.fetchResult with e | segments
      · simp [fetch_one, h, hp, hf, errorRecord]
      · simp [fetch_one, h, hp, hf, successRecord]

theorem fetch_one_amended_invariant (vid : String) (langs : List String)
    (beh : SourceBehavior) (sleep_s clock : ℚ) :
    resultInvariantAmended (fetch_one vid langs beh sleep_s clock).1.has_transcript
      (fetch_one vid langs beh sleep_s clock).1.error_type
      (fetch_one vid langs beh sleep_s clock).1.transcript_text := by
  rcases h : beh.listResult with e | tl
  · simp [fetch_one, h, errorRecord, resultInvariantAmended]
  · rcases hp : pick_transcript tl langs with _ | ⟨chosen, src⟩
    · simp [fetch_one, h, hp, noTranscriptRecord, resultInvariantAmended]
    · rcases hf : chosen.fetchResult with e | segments
      · simp [fetch_one, h, hp, hf, errorRecord, resultInvariantAmended]
      · simp [fetch_one, h, hp, hf, successRecord, resultInvariantAmended]

theorem whisperRow_amended_invariant (vid modelName : String)
    (res : Except Exc (Option String × Option String)) (t : ℚ) :
    resultInvariantAmended (whisperRow vid modelName res t).has_transcript
      (whisperRow vid modelName res t).error_type
      (whisperRow vid modelName res t).transcript_text := by
  rcases res with e | ⟨rawText, lang⟩
  · simp [whisperRow, resultInvariantAmended]
  · by_cases h : (pyStrip (rawText.getD "") == "") = true
    · simp [whisperRow, h, resultInvariantAmended]
    · simp [whisperRow, h, resultInvariantAmended]

/-! ### Emptiness characterisation of `pick_transcript` -/

theorem pick_transcript_nil (langs : List String) :
    pick_transcript [] langs = none := by
  have h1 : langs.findSome? (findManual []) = none := by
    simp [findManual]
  have h2 : langs.findSome? (findGenerated []) = none := by
    simp [findGenerated]
  simp [pick_transcript, h1, h2]

theorem pick_transcript_cons_ne_none (t : Transcript) (ts : List Transcript)
    (langs : List String) : pick_transcript (t :: ts) langs ≠ none := by
  rcases h1 : langs.findSome? (findManual (t :: ts)) with _ | u
  · rcases h2 : langs.findSome? (findGenerated (t :: ts)) with _ | u
    · rcases h3 : ((t :: ts).filter fun x => !x.is_generated).head? with _ | u
      · rcases h4 : ((t :: ts).filter fun x => x.is_generated).head? with _ | u
        · exfalso
          rw [List.head?_eq_none_iff, List.filter_eq_nil_iff] at h3 h4
          have hm := h3 t (by simp)
          have hg := h4 t (by simp)
          cases hgen : t.is_generated
          · exact hm (by simp [hgen])
          · exact hg (by simp [hgen])
        · simp [pick_transcript, h1, h2, h3, h4]
      · simp [pick_transcript, h1, h2, h3]
    · simp [pick_transcript, h1, h2]
  · simp [pick_transcript, h1]

/-! ### Lemmas about the driver loop -/

theorem workList_done_nil (l : List String) : workList [] l = l := by
  induction l with
  | nil => rfl
  | cons v vs ih => simp [workList, ih]

theorem workList_sublist (done : List String) (l : List String) :
    List.Sublist (workList done l) l := by
  induction l with
  | nil => simp [workList]
  | cons v vs ih =>
    by_cases h : v ∈ done
    · simp only [workList, if_pos h]
      exact ih.cons v
    · simp only [workList, if_neg h]
      exact ih.cons₂ v

theorem workList_eq_nil (done : List String) (l : List String)
    (h : ∀ v ∈ l, v ∈ done) : workList done l = [] := by
  induction l with
  | nil => rfl
  | cons v vs ih =>
    simp only [workList, if_pos (h v (by simp))]
    exact ih fun u hu => h u (by simp [hu])

section DriverLemmas

variable (beh : String → Nat → SourceBehavior) (existing : List Rec)
variable (done : List String)

theorem newStep_vid (s : RunState) (vid : String) :
    (newStep beh s vid).vid = vid := rfl

theorem newStep_result_video_id (s : RunState) (vid : String) :
    (newStep beh s vid).result.video_id = vid := by
  simp only [newStep]
  exact fetch_one_video_id _ _ _ _ _

theorem newStep_pacing (s : RunState) (vid : String) :
    stepPacing (newStep beh s vid) := by
  simp only [newStep, stepPacing]
  constructor
  · simp
  · split <;> simp_all

theorem stepItem_skip (s : RunState) {vid : String} (h : vid ∈ done) :
    stepItem beh existing done s vid = s := by
  simp [stepItem, h]

theorem stepItem_rows (s : RunState) {vid : String} (h : vid ∉ done) :
    (stepItem beh existing done s vid).rows
      = s.rows ++ [(newStep beh s vid).result] := by
  simp [stepItem, h]

theorem stepItem_steps (s : RunState) {vid : String} (h : vid ∉ done) :
    (stepItem beh existing done s vid).steps
      = s.steps ++ [newStep beh s vid] := by
  simp [stepItem, h]

theorem stepItem_flushes (s : RunState) {vid : String} (h : vid ∉ done) :
    (stepItem beh existing done s vid).flushes
      = if 0 < (s.rows ++ [(newStep beh s vid).result]).length
            ∧ (s.rows ++ [(newStep beh s vid).result]).length % 100 = 0
        then s.flushes ++ [existing ++ (s.rows ++ [(newStep beh s vid).result])]
        else s.flushes := by
  simp [stepItem, h]

theorem foldl_skip (l : List String) (h : ∀ v ∈ l, v ∈ done) :
    ∀ s : RunState, l.foldl (stepItem beh existing done) s = s := by
  induction l with
  | nil => intro s; rfl
  | cons v vs ih =>
    intro s
    rw [List.foldl_cons, stepItem_skip beh existing done s (h v (by simp))]
    exact ih (fun u hu => h u (by simp [hu])) s

theorem foldl_rows_vids (l : List String) :
    ∀ s : RunState,
      ((l.foldl (stepItem beh existing done) s).rows.map fun r => r.video_id)
        = (s.rows.map fun r => r.video_id) ++ workList done l := by
  induction l with
  | nil => intro s; simp [workList]
  | cons v vs ih =>
    intro s
    by_cases h : v ∈ done
    · rw [List.foldl_cons, stepItem_skip beh existing done s h, ih s]
      simp [workList, h]
    · rw [List.foldl_cons, ih (stepItem beh existing done s v),
        stepItem_rows beh existing done s h]
      simp [workList, h, newStep_result_video_id]

theorem foldl_steps_vids (l : List String) :
    ∀ s : RunState,
      ((l.foldl (stepItem beh existing done) s).steps.map fun st => st.vid)
        = (s.steps.map fun st => st.vid) ++ workList done l := by
  induction l with
  | nil => intro s; simp [workList]
  | cons v vs ih =>
    intro s
    by_cases h : v ∈ done
    · rw [List.foldl_cons, stepItem_skip beh existing done s h, ih s]
      simp [workList, h]
    · rw [List.foldl_cons, ih (stepItem beh existing done s v),
        stepItem_steps beh existing done s h]
      simp [workList, h, newStep_vid]

theorem foldl_rows_eq_steps (l : List String) :
    ∀ s : RunState, s.rows = (s.steps.map fun st => st.result) →
      (l.foldl (stepItem beh existing done) s).rows
        = ((l.foldl (stepItem beh existing done) s).steps.map
            fun st => st.result) := by
  induction l with
  | nil => intro s h; exact h
  | cons v vs ih =>
    intro s h
    rw [List.foldl_cons]
    by_cases hm : v ∈ done
    · rw [stepItem_skip beh existing done s hm]
      exact ih s h
    · refine ih _ ?_
      rw [stepItem_rows beh existing done s hm,
        stepItem_steps beh existing done s hm]
      simp [h]

theorem foldl_pacing (l : List String) :
    ∀ s : RunState, (∀ st ∈ s.steps, stepPacing st) →
      ∀ st ∈ (l.foldl (stepItem beh existing done) s).steps, stepPacing st := by
  induction l with
  | nil => intro s h; exact h
  | cons v vs ih =>
    intro s h
    rw [List.foldl_cons]
    by_cases hm : v ∈ done
    · rw [stepItem_skip beh existing done s hm]
      exact ih s h
    · refine ih _ ?_
      rw [stepItem_steps beh existing done s hm]
      intro st hst
      rcases List.mem_append.1 hst with hst | hst
      · exact h st hst
      · have heq : st = newStep beh s v := by simpa using hst
        rw [heq]
        exact newStep_pacing beh s v

theorem foldl_rows_extension (l : List String) :
    ∀ s : RunState, ∃ rest,
      (l.foldl (stepItem beh existing done) s).rows = s.rows ++ rest := by
  induction l with
  | nil => intro s; exact ⟨[], by simp⟩
  | cons v vs ih =>
    intro s
    rw [List.foldl_cons]
    by_cases hm : v ∈ done
    · rw [stepItem_skip beh existing done s hm]
      exact ih s
    · obtain ⟨rest, hrest⟩ := ih (stepItem beh existing done s v)
      refine ⟨[(newStep beh s v).result] ++ rest, ?_⟩
      rw [hrest, stepItem_rows beh existing done s hm, List.append_assoc]

theorem stepItem_flushInv (s : RunState) (vid : String)
    (h : flushInv existing s) :
    flushInv existing (stepItem beh existing done s vid) := by
  by_cases hm : vid ∈ done
  · rw [stepItem_skip beh existing done s hm]
    exact h
  · obtain ⟨h1, h2⟩ := h
    constructor
    · intro f hf
      rw [stepItem_flushes beh existing done s hm] at hf
      rw [stepItem_rows beh existing done s hm]
      by_cases hc : 0 < (s.rows ++ [(newStep beh s vid).result]).length
          ∧ (s.rows ++ [(newStep beh s vid).result]).length % 100 = 0
      · rw [if_pos hc] at hf
        rcases List.mem_append.1 hf with hf | hf
        · obtain ⟨rest, hrest⟩ := h1 f hf
          refine ⟨rest ++ [(newStep beh s vid).result], ?_⟩
          rw [← List.append_assoc, hrest, List.append_assoc]
        · have heq : f = existing ++ (s.rows ++ [(newStep beh s vid).result]) := by
            simpa using hf
          exact ⟨[], by simp [heq]⟩
      · rw [if_neg hc] at hf
        obtain ⟨rest, hrest⟩ := h1 f hf
        refine ⟨rest ++ [(newStep beh s vid).result], ?_⟩
        rw [← List.append_assoc, hrest, List.append_assoc]
    · rw [stepItem_flushes beh existing done s hm]
      by_cases hc : 0 < (s.rows ++ [(newStep beh s vid).result]).length
          ∧ (s.rows ++ [(newStep beh s vid).result]).length % 100 = 0
      · rw [if_pos hc, List.pairwise_append]
        refine ⟨h2, List.pairwise_singleton _ _, ?_⟩
        intro a ha b hb
        have hb' : b = existing ++ (s.rows ++ [(newStep beh s vid).result]) := by
          simpa using hb
        obtain ⟨rest, hrest⟩ := h1 a ha
        refine ⟨rest ++ [(newStep beh s vid).result], ?_⟩
        rw [hb', ← List.append_assoc, hrest, List.append_assoc]
      · rw [if_neg hc]
        exact h2

theorem foldl_flushInv (l : List String) :
    ∀ s : RunState, flushInv existing s →
      flushInv existing (l.foldl (stepItem beh existing done) s) := by
  induction l with
  | nil => intro s h; exact h
  | cons v vs ih =>
    intro s h
    rw [List.foldl_cons]
    exact ih _ (stepItem_flushInv beh existing done s v h)

end DriverLemmas

/-! ### Claim theorems: C1, C4, C9, C10 -/

/-- C1, counterexample: the claimed invariant (`has_text` true iff
`error_kind` absent and `text` non-empty) fails on a TranscriptResult the
pipeline produces when the upstream transcript fetch yields an empty
segment list: the row then has `has_transcript = true`, no error, and the
empty string as text. -/
theorem c1_counterexample :
    ¬ (∀ r ∈ (runDriver (fun _ _ => behEmptyText) [] ["X"]).2,
        resultInvariantClaim r.has_transcript r.error_type r.transcript_text) := by
  decide

/-- C1, amended: for every TranscriptResult produced by the text-source
path (`fetch_one`) or the fallback transcriber path (the whisper row
builder), `has_text` is true iff `error_kind` is absent and `text` is
present (the text may be the empty string on the text-source path), and
whenever `has_text` is false the text is absent. -/
theorem c1_invariant_amended (vid : String) (langs : List String)
    (beh : SourceBehavior) (sleep_s clock : ℚ) (wvid wmodel : String)
    (wres : Except Exc (Option String × Option String)) (wt : ℚ) :
    resultInvariantAmended (fetch_one vid langs beh sleep_s clock).1.has_transcript
      (fetch_one vid langs beh sleep_s clock).1.error_type
      (fetch_one vid langs beh sleep_s clock).1.transcript_text ∧
    resultInvariantAmended (whisperRow wvid wmodel wres wt).has_transcript
      (whisperRow wvid wmodel wres wt).error_type
      (whisperRow wvid wmodel wres wt).transcript_text :=
  ⟨fetch_one_amended_invariant vid langs beh sleep_s clock,
   whisperRow_amended_invariant wvid wmodel wres wt⟩

/-- Witness for the amended C1 invariant at concrete inputs. -/
theorem c1_witness :
    (whisperRow "W" "base" (.ok (some "   ", some "en")) 0).transcript_text
      = none := by
  have h := c1_invariant_amended "A" ["en"] behUnavailable inter_item_sleep_s 0
    "W" "base" (.ok (some "   ", some "en")) 0
  exact h.2.2 (by decide)

/-- C4, counterexample: on the spec's three-item scenario, a single run
does not give item C a successful result — the driver records C's
rate-limited failure and never makes a second attempt, so the claimed
`has_text=true` for C is false. -/
theorem c4_counterexample :
    ¬ (∀ r ∈ (runDriver scenarioBeh [] ["A", "B", "C"]).2,
        r.video_id = "C" → r.has_transcript = true) := by
  decide

/-- C4, amended: on the scenario input `[A, B, C]` a single run yields A
with `has_text=true, source_kind=manual, language_code=en`, B with
`has_text=true, source_kind=auto, language_code=es` via tier 4, and C
with `has_text=false, error_kind=TooManyRequests`; exactly one cool-down
pause is observed, after C's only attempt. -/
theorem c4_scenario_amended :
    ((runDriver scenarioBeh [] ["A", "B", "C"]).2.map fun r =>
        (r.video_id, r.has_transcript, r.source, r.language_code, r.error_type))
      = [("A", true, some "manual", some "en", none),
         ("B", true, some "auto", some "es", none),
         ("C", false, none, none, some "TooManyRequests")] ∧
    ((runDriver scenarioBeh [] ["A", "B", "C"]).1.steps.map fun st =>
        (st.vid, st.cooldownApplied))
      = [("A", false), ("B", false), ("C", true)] := by
  decide

/-- C9, counterexample: `fetched_at` is not the timestamp of the attempt's
completion — on an upstream whose listing and fetch take positive time,
the recorded `fetched_at_utc` differs from the clock at completion. -/
theorem c9_counterexample :
    ¬ ((fetch_one "A" ["en"] behTimed inter_item_sleep_s 0).1.fetched_at_utc
        = (fetch_one "A" ["en"] behTimed inter_item_sleep_s 0).2) := by
  have h1 := fetch_one_fetched_at "A" ["en"] behTimed inter_item_sleep_s 0
  have h2 : (fetch_one "A" ["en"] behTimed inter_item_sleep_s 0).2
      = 0 + 5 + 2 + inter_item_sleep_s := rfl
  rw [h1, h2]
  norm_num [inter_item_sleep_s]

/-- C9, amended: `fetched_at` is the timestamp read when the attempt
starts, before any network operation (the completion clock is returned
separately). -/
theorem c9_fetched_at_amended (vid : String) (langs : List String)
    (beh : SourceBehavior) (sleep_s clock : ℚ) :
    (fetch_one vid langs beh sleep_s clock).1.fetched_at_utc = clock :=
  fetch_one_fetched_at vid langs beh sleep_s clock

/-- C10: the per-item fetch is total — for every item id, language list
and source behaviour (including raised exceptions) the returned record's
id equals the input id — and `pick_transcript` never fails, returning the
no-transcript outcome exactly when the listing offers no transcript at
all. -/
theorem c10_totality :
    (∀ (vid : String) (langs : List String) (beh : SourceBehavior)
        (sleep_s clock : ℚ),
        (fetch_one vid langs beh sleep_s clock).1.video_id = vid) ∧
    (∀ (tl : List Transcript) (langs : List String),
        pick_transcript tl langs = none ↔ tl = []) := by
  refine ⟨fetch_one_video_id, fun tl langs => ⟨fun h => ?_, fun h => ?_⟩⟩
  · cases tl with
    | nil => rfl
    | cons t ts => exact absurd h (pick_transcript_cons_ne_none t ts langs)
  · subst h
    exact pick_transcript_nil langs

/-! ### Claim theorems: C2, C3, C5, C6, C7, C8 -/

/-- C2: the Source Selector searches the four tiers in strict priority
order with first match winning (`pick_transcript` equals the spec's
tier-list fold), and for an item having manual and auto transcripts both
in a preferred language and in other languages it returns a manual
transcript in a preferred language. -/
theorem c2_selector_priority (tl : List Transcript) (langs : List String) :
    pick_transcript tl langs = selectorSpec tl langs ∧
    (∀ t ∈ tl, t.is_generated = false → t.language_code ∈ langs →
      ∃ t', pick_transcript tl langs = some (t', "manual")
        ∧ t'.is_generated = false ∧ t'.language_code ∈ langs) := by
  constructor
  · rcases h1 : langs.findSome? (findManual tl) with _ | t <;>
      rcases h2 : langs.findSome? (findGenerated tl) with _ | u <;>
        rcases h3 : (tl.filter fun x => !x.is_generated).head? with _ | v <;>
          rcases h4 : (tl.filter fun x => x.is_generated).head? with _ | w <;>
            simp [pick_transcript, selectorSpec, specTier1, specTier2,
              specTier3, specTier4, Option.orElse, h1, h2, h3, h4]
  · intro t ht hgen hlang
    have hfind : (tl.find? fun x =>
        !x.is_generated && x.language_code == t.language_code).isSome := by
      rw [List.find?_isSome]
      exact ⟨t, ht, by simp [hgen]⟩
    have hsome : (langs.findSome? (findManual tl)).isSome := by
      rw [List.findSome?_isSome_iff]
      exact ⟨t.language_code, hlang, by simpa [findManual] using hfind⟩
    obtain ⟨t', ht'⟩ := Option.isSome_iff_exists.1 hsome
    obtain ⟨lang', hlang', hfm⟩ := List.exists_of_findSome?_eq_some ht'
    rw [findManual] at hfm
    have hp := List.find?_some hfm
    simp only [Bool.and_eq_true, Bool.not_eq_true', beq_iff_eq] at hp
    refine ⟨t', by simp [pick_transcript, ht'], hp.1, ?_⟩
    rw [hp.2]
    exact hlang'

/-- Witness for C2 at a concrete listing with manual and auto transcripts
in the preferred and in another language. -/
theorem c2_witness :
    ∃ t', pick_transcript richList ["en"] = some (t', "manual")
      ∧ t'.is_generated = false ∧ t'.language_code ∈ ["en"] := by
  have h := c2_selector_priority richList ["en"]
  exact h.2 tManualEn (by simp [richList]) rfl (by simp [tManualEn])

/-- C3: whenever an item's failure is the rate-limited kind, the driver
has recorded that item's failed row (the rows are exactly the step
results), runs the 60-unit cool-down at that step, makes no further
attempt at that item in the run, and goes on with the work list in order
(the step sequence is exactly the work list). -/
theorem c3_rate_limit_pacing (beh : String → Nat → SourceBehavior)
    (existing : List Rec) (ids : List String) (h : ids.Nodup) :
    ((runDriver beh existing ids).1.steps.map fun st => st.vid)
        = workList (existing.map fun r => r.video_id) ids ∧
    (runDriver beh existing ids).1.rows
        = ((runDriver beh existing ids).1.steps.map fun st => st.result) ∧
    ∀ st ∈ (runDriver beh existing ids).1.steps,
      st.result.error_type = some "TooManyRequests" →
        st.cooldownApplied = true ∧
        st.clockEnd = st.clockAfterFetch + cooldown_s ∧
        ((runDriver beh existing ids).1.steps.filter
            fun t => t.vid == st.vid).length = 1 := by
  have hvds : ((runDriver beh existing ids).1.steps.map fun st => st.vid)
      = workList (existing.map fun r => r.video_id) ids := by
    simpa [runDriver] using
      foldl_steps_vids beh existing (existing.map fun r => r.video_id) ids
        ⟨[], 0, [], []⟩
  refine ⟨hvds, ?_, ?_⟩
  · simpa [runDriver] using
      foldl_rows_eq_steps beh existing (existing.map fun r => r.video_id) ids
        ⟨[], 0, [], []⟩ rfl
  · intro st hst herr
    have hpace := foldl_pacing beh existing
      (existing.map fun r => r.video_id) ids ⟨[], 0, [], []⟩ (by simp)
      st (by simpa [runDriver] using hst)
    have hcool : st.cooldownApplied = true := hpace.1.mpr herr
    refine ⟨hcool, ?_, ?_⟩
    · rw [hpace.2, hcool]
      simp
    · have hnd : (((runDriver beh existing ids).1.steps.map
          fun st => st.vid)).Nodup := by
        rw [hvds]
        exact List.Nodup.sublist
          (workList_sublist (existing.map fun r => r.video_id) ids) h
      have hmem : st.vid ∈ ((runDriver beh existing ids).1.steps.map
          fun st => st.vid) := List.mem_map_of_mem _ hst
      have hcount : ((runDriver beh existing ids).1.steps.filter
            fun t => t.vid == st.vid).length
          = List.count st.vid ((runDriver beh existing ids).1.steps.map
              fun t => t.vid) := by
        rw [← List.countP_eq_length_filter, List.count_eq_countP,
          List.countP_map]
        rfl
      rw [hcount]
      exact List.count_eq_one_of_mem hnd hmem

/-- Witness for C3 on the concrete scenario run. -/
theorem c3_witness :
    ((runDriver scenarioBeh [] ["A", "B", "C"]).1.steps.map fun st => st.vid)
      = ["A", "B", "C"] := by
  have h := c3_rate_limit_pacing scenarioBeh [] ["A", "B", "C"] (by decide)
  simpa [workList] using h.1

/-- C5: running the driver a second time on the same input with the
checkpoint produced by the first run yields exactly the same checkpoint:
the re-run processes zero items (no rows, no steps), and the checkpoint
holds exactly one row per distinct item id. -/
theorem c5_idempotent_resume (beh : String → Nat → SourceBehavior)
    (ids : List String) (h : ids.Nodup) :
    (runDriver beh (runDriver beh [] ids).2 ids).2 = (runDriver beh [] ids).2 ∧
    (runDriver beh (runDriver beh [] ids).2 ids).1.rows = [] ∧
    (runDriver beh (runDriver beh [] ids).2 ids).1.steps = [] ∧
    ((runDriver beh [] ids).2.map fun r => r.video_id).Nodup := by
  have hvds : ((runDriver beh [] ids).2.map fun r => r.video_id) = ids := by
    have hrows := foldl_rows_vids beh ([] : List Rec)
      (([] : List Rec).map fun r => r.video_id) ids ⟨[], 0, [], []⟩
    simpa [runDriver, workList_done_nil] using hrows
  have hdone : ∀ v ∈ ids,
      v ∈ ((runDriver beh [] ids).2.map fun r => r.video_id) := by
    rw [hvds]
    exact fun v hv => hv
  have hskip : (runDriver beh (runDriver beh [] ids).2 ids).1
      = ⟨[], 0, [], []⟩ := by
    simpa [runDriver] using
      foldl_skip beh (runDriver beh [] ids).2
        ((runDriver beh [] ids).2.map fun r => r.video_id) ids hdone
        ⟨[], 0, [], []⟩
  refine ⟨?_, ?_, ?_, ?_⟩
  · show (runDriver beh [] ids).2
        ++ (runDriver beh (runDriver beh [] ids).2 ids).1.rows
      = (runDriver beh [] ids).2
    rw [hskip]
    simp
  · rw [hskip]
  · rw [hskip]
  · rw [hvds]
    exact h

/-- Witness for C5 on the concrete scenario run. -/
theorem c5_witness :
    (runDriver scenarioBeh (runDriver scenarioBeh [] ["A", "B", "C"]).2
        ["A", "B", "C"]).1.steps = [] := by
  have h := c5_idempotent_resume scenarioBeh ["A", "B", "C"] (by decide)
  exact h.2.2.1

/-- C6: every failure raised while listing transcripts or fetching the
chosen transcript is caught at the per-item boundary and converted into a
failed row for that item (so no failure propagates), and every attempted
work-list item yields exactly one result row, in order. -/
theorem c6_per_item_boundary (vid : String) (langs : List String)
    (beh : SourceBehavior) (sleep_s clock : ℚ)
    (dbeh : String → Nat → SourceBehavior) (existing : List Rec)
    (ids : List String) :
    (∀ e, beh.listResult = .error e →
      (fetch_one vid langs beh sleep_s clock).1 = errorRecord vid e clock) ∧
    (∀ tl chosen src e, beh.listResult = .ok tl →
      pick_transcript tl langs = some (chosen, src) →
      chosen.fetchResult = .error e →
      (fetch_one vid langs beh sleep_s clock).1 = errorRecord vid e clock) ∧
    ((runDriver dbeh existing ids).1.rows.map fun r => r.video_id)
      = workList (existing.map fun r => r.video_id) ids := by
  refine ⟨?_, ?_, ?_⟩
  · intro e he
    simp [fetch_one, he]
  · intro tl chosen src e htl hp hf
    simp [fetch_one, htl, hp, hf]
  · simpa [runDriver] using
      foldl_rows_vids dbeh existing (existing.map fun r => r.video_id) ids
        ⟨[], 0, [], []⟩

/-- Witness for C6: a listing failure at a concrete item becomes that
item's failed row. -/
theorem c6_witness :
    (fetch_one "V" ["en"] behUnavailable inter_item_sleep_s 0).1
      = errorRecord "V" (.videoUnavailable "video is private") 0 := by
  have h := c6_per_item_boundary "V" ["en"] behUnavailable inter_item_sleep_s 0
    scenarioBeh [] []
  exact h.1 (.videoUnavailable "video is private") rfl

/-- C7: the classifier maps the four taxonomy failures to four distinct
kinds, any other failure keeps its own (non-taxonomy) name, and the
rate-limited kind is the only classification with a cross-item effect: a
step cooled down iff its recorded kind is `TooManyRequests`, and every
other classification leaves the pipeline clock untouched. -/
theorem c7_classifier (beh : String → Nat → SourceBehavior)
    (existing : List Rec) (ids : List String) :
    (["TranscriptsDisabled", "NoTranscriptFound", "VideoUnavailable",
        "TooManyRequests"] : List String).Nodup ∧
    (∀ m : String,
      excName (Exc.transcriptsDisabled m) = "TranscriptsDisabled" ∧
      excName (Exc.noTranscriptFound m) = "NoTranscriptFound" ∧
      excName (Exc.videoUnavailable m) = "VideoUnavailable" ∧
      excName (Exc.tooManyRequests m) = "TooManyRequests") ∧
    (∀ n m : String,
      n ∉ (["TranscriptsDisabled", "NoTranscriptFound", "VideoUnavailable",
          "TooManyRequests"] : List String) →
      excName (Exc.other n m) ∉ (["TranscriptsDisabled", "NoTranscriptFound",
        "VideoUnavailable", "TooManyRequests"] : List String)) ∧
    (∀ st ∈ (runDriver beh existing ids).1.steps,
      (st.cooldownApplied = true ↔
        st.result.error_type = some "TooManyRequests") ∧
      (st.cooldownApplied = false → st.clockEnd = st.clockAfterFetch)) := by
  refine ⟨by decide, fun m => ⟨rfl, rfl, rfl, rfl⟩, fun n m hn => hn, ?_⟩
  intro st hst
  have hpace := foldl_pacing beh existing
    (existing.map fun r => r.video_id) ids ⟨[], 0, [], []⟩ (by simp)
    st (by simpa [runDriver] using hst)
  refine ⟨hpace.1, fun hc => ?_⟩
  rw [hpace.2, hc]
  simp

/-- Witness for C7: a non-taxonomy exception class keeps a kind outside
the taxonomy. -/
theorem c7_witness :
    excName (Exc.other "ValueError" "boom")
      ∉ (["TranscriptsDisabled", "NoTranscriptFound", "VideoUnavailable",
          "TooManyRequests"] : List String) := by
  have h := c7_classifier scenarioBeh [] []
  exact h.2.2.1 "ValueError" "boom" (by decide)

/-- C8: within a run the checkpoint only grows — every flush snapshot is
an initial segment of the final checkpoint, snapshots extend one another
in order, and processing any later suffix of the work list (including a
rate-limited item) only appends to the rows recorded for the earlier
items. -/
theorem c8_monotone_checkpoint (beh : String → Nat → SourceBehavior)
    (existing : List Rec) (ids : List String) :
    (∀ f ∈ (runDriver beh existing ids).1.flushes,
      ∃ rest, (runDriver beh existing ids).2 = f ++ rest) ∧
    (runDriver beh existing ids).1.flushes.Pairwise
      (fun a b => ∃ rest, b = a ++ rest) ∧
    (∀ l1 l2, ids = l1 ++ l2 →
      ∃ rest, (runDriver beh existing ids).1.rows
        = (runDriver beh existing l1).1.rows ++ rest) := by
  have hinv := foldl_flushInv beh existing
    (existing.map fun r => r.video_id) ids ⟨[], 0, [], []⟩
    (by constructor <;> simp)
  refine ⟨?_, ?_, ?_⟩
  · intro f hf
    obtain ⟨rest, hrest⟩ := hinv.1 f (by simpa [runDriver] using hf)
    exact ⟨rest, hrest⟩
  · exact hinv.2
  · intro l1 l2 hsplit
    subst hsplit
    obtain ⟨rest, hrest⟩ := foldl_rows_extension beh existing
      (existing.map fun r => r.video_id) l2
      (l1.foldl (stepItem beh existing (existing.map fun r => r.video_id))
        ⟨[], 0, [], []⟩)
    refine ⟨rest, ?_⟩
    show ((l1 ++ l2).foldl
        (stepItem beh existing (existing.map fun r => r.video_id))
        ⟨[], 0, [], []⟩).rows = _
    rw [List.foldl_append]
    exact hrest

/-- Witness for C8: on the scenario run, the rows after items B and C
extend the rows recorded for item A. -/
theorem c8_witness :
    ∃ rest, (runDriver scenarioBeh [] ["A", "B", "C"]).1.rows
      = (runDriver scenarioBeh [] ["A"]).1.rows ++ rest :=
  (c8_monotone_checkpoint scenarioBeh [] ["A", "B", "C"]).2.2 ["A"] ["B", "C"]
    rfl

end TranscriptPipeline
